import Mathlib

/-!
Verification of the proxy exercises repository (`src/index.ts`).

The source builds five JavaScript `Proxy` wrappers:
* `createValidatedProxy` — schema-validated reads/writes on a plain object;
* `getProxiedArray`      — Python-style negative indexing on an array;
* `createLoggedObj`      — logging wrapper around callable members;
* `createChainableProxy` — permissive method chaining (unknown methods chain);
* `createObservable`     — per-key change listeners fired on write.

Shallow embedding conventions used throughout:
* JS plain objects are association lists `List (String × Value)` of own
  properties, looked up first-match; the demo targets are object literals, so
  prototype-chain keys are outside the modelled key space.
* JS primitive values are the inductive `Value` (string / number / boolean /
  undefined); the schemas in the source hold only these.  Numbers are exact
  (`Int` for stored values, `Rat` for parsed index keys); floating-point
  rounding never matters at the magnitudes the source uses.
* A trap that throws is a function into `Except`; a rejected write returns the
  error and the caller keeps the old object, which `runSet` makes explicit.
* Closures with console effects are modelled by returning the emitted event
  list alongside the value, in emission order.
-/

set_option autoImplicit false

namespace Proxies

/-- The result of JavaScript `typeof` on the primitive values the validated
schema can hold (`string`, `number`, `boolean`, `undefined`). -/
inductive JSType where
  | string
  | number
  | boolean
  | undefined
  deriving DecidableEq, Repr

/-- A JS primitive value as stored in the demo objects.  Numbers are modelled
as exact integers (`Int`): every number in the source is a small integer. -/
inductive Value where
  | str (s : String)
  | num (n : Int)
  | bool (b : Bool)
  | undef
  deriving DecidableEq, Repr

/-- JavaScript `typeof` on a `Value`. -/
def typeOf : Value → JSType
  | .str _ => .string
  | .num _ => .number
  | .bool _ => .boolean
  | .undef => .undefined

/-- First-match lookup in an association list: `l[k]`, `none` when the key is
absent (JS `undefined` / `k in l` false). -/
def alookup {β : Type} : List (String × β) → String → Option β
  | [], _ => none
  | (k', v) :: t, k => if k' = k then some v else alookup t k

/-- Assignment `l[k] = v`: replaces the first binding of `k` in place, or
appends a new binding at the end (JS objects and `Map.set` keep insertion
order). -/
def aset {β : Type} : List (String × β) → String → β → List (String × β)
  | [], k, v => [(k, v)]
  | (k', v') :: t, k, v => if k' = k then (k, v) :: t else (k', v') :: aset t k v

theorem alookup_aset_self {β : Type} (l : List (String × β)) (k : String) (v : β) :
    alookup (aset l k v) k = some v := by
  induction l with
  | nil => simp [aset, alookup]
  | cons p t ih =>
    obtain ⟨k', v'⟩ := p
    by_cases h : k' = k
    · simp [aset, alookup, h]
    · simp [aset, alookup, h, ih]

/-! ## Exercise 1 — `createValidatedProxy` -/

/-- The two failure modes of the validation proxy's traps.  The source throws
`Error` with distinct messages; the spec names them `UnknownPropertyError` and
`TypeMismatchError`. -/
inductive ValidationError where
  | unknownProperty (key : String)
  | typeMismatch (key : String) (expected got : JSType)
  deriving DecidableEq, Repr

/-- The `get` trap of `createValidatedProxy`: return `obj[prop]` when
`prop in obj`, otherwise throw (`Property ... does not exist on the object`). -/
def validatedGet (o : List (String × Value)) (k : String) : Except ValidationError Value :=
  match alookup o k with
  | some v => Except.ok v
  | none => Except.error (ValidationError.unknownProperty k)

/-- The `set` trap of `createValidatedProxy`: throw when `prop` is not in the
schema; throw when `typeof value` differs from `typeof` of the current value;
otherwise commit `obj[prop] = value` and succeed. -/
def validatedSet (o : List (String × Value)) (k : String) (v : Value) :
    Except ValidationError (List (String × Value)) :=
  match alookup o k with
  | none => Except.error (ValidationError.unknownProperty k)
  | some cur =>
    if typeOf v = typeOf cur then Except.ok (aset o k v)
    else Except.error (ValidationError.typeMismatch k (typeOf cur) (typeOf v))

/-- The object the caller holds after attempting a `set`: the committed object
on success, the untouched old object when the trap threw (the thrown error
aborts the assignment before any mutation). -/
def runSet (o : List (String × Value)) (k : String) (v : Value) :
    List (String × Value) :=
  match validatedSet o k v with
  | Except.ok o' => o'
  | Except.error _ => o

/-- The demo schema object of the source:
`{ name: "", age: 0, isActive: false }`. -/
def demoUser : List (String × Value) :=
  [("name", Value.str ""), ("age", Value.num 0), ("isActive", Value.bool false)]

/-- Claim C1: for every key present in the initial wrapped container and every
value whose primitive type equals the type of the key's current value,
`set(key, value)` on the validated proxy succeeds, and a subsequent
`get(key)` returns exactly that value. -/
theorem validated_set_get_roundtrip (o : List (String × Value)) (k : String)
    (v cur : Value) (hk : alookup o k = some cur) (ht : typeOf v = typeOf cur) :
    validatedSet o k v = Except.ok (aset o k v) ∧
    validatedGet (aset o k v) k = Except.ok v := by
  constructor
  · simp [validatedSet, hk, ht]
  · simp [validatedGet, alookup_aset_self]

theorem validated_set_get_roundtrip_w :
    validatedSet demoUser "name" (Value.str "Alice") =
      Except.ok (aset demoUser "name" (Value.str "Alice")) ∧
    validatedGet (aset demoUser "name" (Value.str "Alice")) "name" =
      Except.ok (Value.str "Alice") :=
  validated_set_get_roundtrip demoUser "name" (Value.str "Alice") (Value.str "")
    (by decide) (by decide)

/-- Claim C2: a `set` on a present key with a value of the wrong primitive type
fails with `TypeMismatchError` and leaves the stored object unchanged (atomic
reject, no partial mutation). -/
theorem validated_type_mismatch (o : List (String × Value)) (k : String)
    (v cur : Value) (hk : alookup o k = some cur) (ht : typeOf v ≠ typeOf cur) :
    validatedSet o k v =
      Except.error (ValidationError.typeMismatch k (typeOf cur) (typeOf v)) ∧
    runSet o k v = o ∧
    alookup (runSet o k v) k = some cur := by
  refine ⟨by simp [validatedSet, hk, ht], ?_, ?_⟩
  · simp [runSet, validatedSet, hk, ht]
  · simp [runSet, validatedSet, hk, ht]

theorem validated_type_mismatch_w :
    validatedSet demoUser "age" (Value.str "25") =
      Except.error (ValidationError.typeMismatch "age" JSType.number JSType.string) ∧
    runSet demoUser "age" (Value.str "25") = demoUser ∧
    alookup (runSet demoUser "age" (Value.str "25")) "age" = some (Value.num 0) :=
  validated_type_mismatch demoUser "age" (Value.str "25") (Value.num 0)
    (by decide) (by decide)

/-- Claim C3: for a key not present in the validated container, `get` and `set`
both fail with `UnknownPropertyError` (in either order: `get` never mutates and
a failed `set` leaves the object untouched), and the key is not added. -/
theorem validated_unknown_key (o : List (String × Value)) (k : String) (v : Value)
    (hk : alookup o k = none) :
    validatedGet o k = Except.error (ValidationError.unknownProperty k) ∧
    validatedSet o k v = Except.error (ValidationError.unknownProperty k) ∧
    runSet o k v = o ∧
    alookup (runSet o k v) k = none := by
  refine ⟨by simp [validatedGet, hk], by simp [validatedSet, hk], ?_, ?_⟩
  · simp [runSet, validatedSet, hk]
  · simp [runSet, validatedSet, hk]

theorem validated_unknown_key_w :
    validatedGet demoUser "invalidProp" =
      Except.error (ValidationError.unknownProperty "invalidProp") ∧
    validatedSet demoUser "invalidProp" (Value.str "test") =
      Except.error (ValidationError.unknownProperty "invalidProp") ∧
    runSet demoUser "invalidProp" (Value.str "test") = demoUser ∧
    alookup (runSet demoUser "invalidProp" (Value.str "test")) "invalidProp" = none :=
  validated_unknown_key demoUser "invalidProp" (Value.str "test") (by decide)

/-! ## Exercise 2 — `getProxiedArray` -/

/-- Whitespace as trimmed by JS string-to-number coercion (ASCII fragment). -/
def isJsSpace (c : Char) : Bool := c = ' ' || c = '\t' || c = '\n' || c = '\r'

/-- Leading/trailing whitespace trimming performed by `Number(string)`. -/
def trimChars (l : List Char) : List Char :=
  ((l.dropWhile isJsSpace).reverse.dropWhile isJsSpace).reverse

/-- Value of a (decimal) digit string. -/
def digitsVal (l : List Char) : Nat :=
  l.foldl (fun a c => a * 10 + (c.toNat - 48)) 0

def allDigits (l : List Char) : Bool := l.all Char.isDigit

/-- A parsed decimal numeral, kept unnormalized: its value is
`mant / 10 ^ scale`.  (Exact rationals; the floating-point rounding of the
host is irrelevant at the magnitudes the source uses.) -/
structure DecNum where
  mant : Int
  scale : Nat
  deriving DecidableEq, Repr

/-- JavaScript `Number(s)` on the modelled key fragment: optional whitespace,
empty string to `0`, optional sign, decimal digits with an optional fractional
part.  `none` is `NaN`.  Other numeric spellings (exponent, hex, `Infinity`)
are outside the modelled key space. -/
def jsNumber (s : String) : Option DecNum :=
  let t := trimChars s.data
  if t = [] then some ⟨0, 0⟩
  else
    let sr : Int × List Char :=
      match t with
      | '-' :: r => (-1, r)
      | '+' :: r => (1, r)
      | r => (1, r)
    let intPart := sr.2.takeWhile (fun c => c ≠ '.')
    let tail := sr.2.dropWhile (fun c => c ≠ '.')
    match tail with
    | [] =>
      if intPart ≠ [] ∧ allDigits intPart then
        some ⟨sr.1 * digitsVal intPart, 0⟩
      else none
    | _ :: fracPart =>
      if (intPart ≠ [] ∨ fracPart ≠ []) ∧ allDigits intPart ∧ allDigits fracPart then
        some ⟨sr.1 * ((digitsVal intPart : Int) * (10 : Int) ^ fracPart.length
                        + (digitsVal fracPart : Int)),
              fracPart.length⟩
      else none

/-- `ToIntegerOrInfinity`, as `Array.prototype.at` applies it to its argument:
truncation toward zero (`Int.tdiv` is T-division). -/
def jsTrunc (d : DecNum) : Int := Int.tdiv d.mant ((10 : Int) ^ d.scale)

/-- The claim's notion of a key that "parses as an integer": `Number(key)` is
not `NaN` and has no fractional part.  Stated from the spec's words, to be
compared with the source's pass-through test `isNaN(Number(prop))`. -/
def integerParsable (s : String) : Bool :=
  match jsNumber s with
  | some d => d.mant % ((10 : Int) ^ d.scale) = 0
  | none => false

/-- A property key as seen by the `get` trap: a string, or a non-string key
(symbol), which the trap's `typeof prop !== "string"` test sends straight to
native access. -/
inductive PropKey where
  | sym
  | str (s : String)
  deriving DecidableEq, Repr

/-- Outcome of a `get` on the negative-index proxy. -/
inductive ArrGetResult (α : Type) where
  /-- Passed through: native `array[prop]` member access with the key
  unchanged (covers `length`, method names, symbols). -/
  | native (key : PropKey)
  /-- An element produced by `array.at(index)`. -/
  | elem (v : α)
  /-- `array.at(index)` returned `undefined`: resolved index out of bounds. -/
  | absent
  deriving DecidableEq, Repr

/-- Wrap the value of `array.at`: an element, or the `absent` sentinel for
JS `undefined`. -/
def elemOrAbsent {α : Type} : Option α → ArrGetResult α
  | some v => ArrGetResult.elem v
  | none => ArrGetResult.absent

/-- `Array.prototype.at i`: index `i` when `0 ≤ i`, else `length + i`;
`none` (JS `undefined`) when the resolved index is out of bounds. -/
def arrayAt {α : Type} (a : List α) (i : Int) : Option α :=
  let k : Int := if 0 ≤ i then i else (a.length : Int) + i
  if 0 ≤ k then a.get? k.toNat else none

/-- The `get` trap of `getProxiedArray`: pass through when the key is not a
string or `Number(key)` is `NaN`; otherwise resolve through
`array.at(Number(key))`. -/
def proxiedArrayGet {α : Type} (a : List α) (key : PropKey) : ArrGetResult α :=
  match key with
  | .sym => ArrGetResult.native key
  | .str s =>
    match jsNumber s with
    | none => ArrGetResult.native key
    | some d => elemOrAbsent (arrayAt a (jsTrunc d))

theorem jsTrunc_int (d : DecNum) (i : Int) (hd : d.mant = i * (10 : Int) ^ d.scale) :
    jsTrunc d = i := by
  simp [jsTrunc, hd, Int.mul_tdiv_cancel]

/-- Claim C4: for every wrapped array and every key that parses as an integer
`i`, `get` on the negative-index proxy returns the element at position `i`
when `0 ≤ i`, the element at position `length + i` when `i < 0`, the first
element for key `"0"`, and the `absent` sentinel (not an error) when the
translated index is still out of bounds. -/
theorem proxiedArray_integer_key {α : Type} (a : List α) (s : String)
    (d : DecNum) (i : Int) (h : jsNumber s = some d)
    (hd : d.mant = i * (10 : Int) ^ d.scale) :
    (0 ≤ i →
      proxiedArrayGet a (PropKey.str s) = elemOrAbsent (a.get? i.toNat)) ∧
    (i < 0 → 0 ≤ (a.length : Int) + i →
      proxiedArrayGet a (PropKey.str s) =
        elemOrAbsent (a.get? ((a.length : Int) + i).toNat)) ∧
    (i < 0 → (a.length : Int) + i < 0 →
      proxiedArrayGet a (PropKey.str s) = ArrGetResult.absent) ∧
    (s = "0" → proxiedArrayGet a (PropKey.str s) = elemOrAbsent (a.get? 0)) := by
  have hmain : proxiedArrayGet a (PropKey.str s) = elemOrAbsent (arrayAt a i) := by
    simp [proxiedArrayGet, h, jsTrunc_int d i hd]
  refine ⟨?_, ?_, ?_, ?_⟩
  · intro hpos
    rw [hmain]; simp [arrayAt, hpos]
  · intro hneg hin
    rw [hmain]; simp [arrayAt, not_le.mpr hneg, hin]
  · intro hneg hout
    rw [hmain]
    simp [arrayAt, not_le.mpr hneg, not_le.mpr hout, elemOrAbsent]
  · intro hs
    subst hs
    have h0 : jsNumber "0" = some (⟨0, 0⟩ : DecNum) := by decide
    have hda : d = ⟨0, 0⟩ := Option.some.inj (h.symm.trans h0)
    have hi : i = 0 := by
      have := hd
      rw [hda] at this
      simpa using this.symm
    rw [hmain, hi]
    simp [arrayAt]

theorem proxiedArray_integer_key_w :
    proxiedArrayGet ([1, 2, 3, 4, 5] : List Nat) (PropKey.str "-1") =
      ArrGetResult.elem 5 := by
  have h := proxiedArray_integer_key ([1, 2, 3, 4, 5] : List Nat) "-1"
    ⟨-1, 0⟩ (-1) (by decide) (by decide)
  exact (h.2.1 (by decide) (by decide)).trans (by decide)

/-- Claim C5, amended: the proxy passes a string key through unchanged to
native member access exactly when `Number(key)` is `NaN` (which covers
non-numeric keys such as `length` and `push`); a numeric but non-integer key
such as `"1.5"` is instead resolved through `array.at` after truncation. -/
theorem proxiedArray_nan_passthrough {α : Type} (a : List α) (s : String)
    (h : jsNumber s = none) :
    proxiedArrayGet a (PropKey.str s) = ArrGetResult.native (PropKey.str s) ∧
    jsNumber "length" = none ∧
    jsNumber "push" = none := by
  refine ⟨by simp [proxiedArrayGet, h], by decide, by decide⟩

theorem proxiedArray_nan_passthrough_w :
    proxiedArrayGet ([1, 2, 3, 4, 5] : List Nat) (PropKey.str "length") =
      ArrGetResult.native (PropKey.str "length") ∧
    jsNumber "length" = none ∧
    jsNumber "push" = none :=
  proxiedArray_nan_passthrough ([1, 2, 3, 4, 5] : List Nat) "length" (by decide)

/-- Claim C5, counterexample: the key `"1.5"` is not an integer-parsable
string, yet `get` does not pass it through to native member access — the
trap's test is `isNaN(Number(prop))`, and `Number("1.5")` is not `NaN`, so the
read is resolved as `array.at(1.5)`, which truncates to index `1` and returns
the second element (native access `array["1.5"]` would be `undefined`). -/
theorem proxiedArray_nonInteger_cex :
    integerParsable "1.5" = false ∧
    proxiedArrayGet ([10, 20, 30, 40, 50] : List Nat) (PropKey.str "1.5") =
      ArrGetResult.elem 20 ∧
    proxiedArrayGet ([10, 20, 30, 40, 50] : List Nat) (PropKey.str "1.5") ≠
      ArrGetResult.native (PropKey.str "1.5") := by
  decide

/-! ## Exercise 3 — `createLoggedObj` -/

/-- The record `console.log` prints from the logging wrapper:
`Calling <name> with args: [<args>]`. -/
structure LogRecord (V : Type) where
  name : String
  args : List V
  deriving DecidableEq, Repr

/-- The observable events of one invocation through the logging wrapper, in
emission order. -/
inductive CallEvent (V : Type) where
  | logged (r : LogRecord V)
  | delegateReturned (v : V)
  | delegateFailed
  deriving DecidableEq, Repr

def isLogEvent {V : Type} : CallEvent V → Bool
  | .logged _ => true
  | _ => false

/-- Invoking the wrapper closure that `createLoggedObj`'s `get` trap returns
for a callable member `f` named `name`: the log record is emitted first, then
the original function runs on the same arguments (a throwing delegate is
`Except.error`); the delegate's outcome follows the log record in the event
trace, and its value is returned unchanged. -/
def loggedCall {V E : Type} (f : List V → Except E V) (name : String)
    (args : List V) : List (CallEvent V) × Except E V :=
  match f args with
  | Except.ok v =>
    ([CallEvent.logged ⟨name, args⟩, CallEvent.delegateReturned v], Except.ok v)
  | Except.error e =>
    ([CallEvent.logged ⟨name, args⟩, CallEvent.delegateFailed], Except.error e)

/-- Claim C6: invoking a callable member through the logging proxy emits
exactly one log record, containing the member's name and the arguments; the
record is first in the event trace — before the delegate's outcome, so a
failing delegate still logs the attempt; and the returned value is exactly
the unwrapped function's result on the same arguments. -/
theorem logged_call_spec {V E : Type} (f : List V → Except E V) (name : String)
    (args : List V) :
    (loggedCall f name args).1.head? = some (CallEvent.logged ⟨name, args⟩) ∧
    (loggedCall f name args).1.countP isLogEvent = 1 ∧
    (loggedCall f name args).2 = f args := by
  cases hf : f args <;> simp [loggedCall, hf, isLogEvent]

/-- The demo delegate `add` of the logged calculator, on integer argument
lists (never throws). -/
def calcAdd (args : List Int) : Except Unit Int :=
  Except.ok (args.headD 0 + (args.drop 1).headD 0)

/-- The logged `add(2, 3)` demo: one log record first, result `5` preserved. -/
theorem logged_call_add_demo :
    loggedCall calcAdd "add" [2, 3] =
      ([CallEvent.logged ⟨"add", [2, 3]⟩, CallEvent.delegateReturned 5],
       Except.ok 5) := by
  simp [loggedCall, calcAdd]

/-! ## Exercise 4 — `createChainableProxy` -/

/-- What a real method of the target returns: `this` (the raw target — the
trap detects this case with the identity test `result === obj`), or some
other value. -/
inductive ChainRet (V : Type) where
  | selfRet
  | value (v : V)
  deriving DecidableEq, Repr

/-- A member slot of the chained target: a method (a state transformer that
also yields a `ChainRet`), a non-callable data property, or absent.  The
trap's `typeof value === "function"` test distinguishes only `method` from
the other two. -/
inductive ChainMember (S V : Type) where
  | method (m : S → List V → S × ChainRet V)
  | data (v : V)
  | absent

/-- What a call through the chaining proxy returns to the caller. -/
inductive ChainResult (V : Type) where
  | wrapper
  | value (v : V)
  deriving DecidableEq, Repr

/-- Outcome of one call through the chaining proxy: the target's state after
the call, the returned value, and the `Chaining: name(args)` report lines
emitted for non-callable members. -/
structure ChainOutcome (S V : Type) where
  state : S
  ret : ChainResult V
  chainLog : List (String × List V)

/-- The `get` trap of `createChainableProxy`, composed with the call the
caller immediately makes on the returned closure: a callable member runs the
original on the given arguments and a self-return is normalized to the
wrapper; any other member (data property or absent) performs no mutation,
only reports the attempted call, and returns the wrapper. -/
def chainInvoke {S V : Type} (obj : String → ChainMember S V) (s : S)
    (name : String) (args : List V) : ChainOutcome S V :=
  match obj name with
  | ChainMember.method m =>
    let r := m s args
    { state := r.1
      ret :=
        match r.2 with
        | ChainRet.selfRet => ChainResult.wrapper
        | ChainRet.value v => ChainResult.value v
      chainLog := [] }
  | ChainMember.data _ =>
    { state := s, ret := ChainResult.wrapper, chainLog := [(name, args)] }
  | ChainMember.absent =>
    { state := s, ret := ChainResult.wrapper, chainLog := [(name, args)] }

/-- The target state after a fluent chain of calls, each routed through the
chaining proxy. -/
def runChain {S V : Type} (obj : String → ChainMember S V) (s : S)
    (calls : List (String × List V)) : S :=
  calls.foldl (fun st c => (chainInvoke obj st c.1 c.2).state) s

/-- Claim C7: invoking an existing callable member through the chaining proxy
calls the original with the given arguments (the state becomes the method's
result state); a result that is identically the raw target is normalized to
the wrapper; any other result is returned unchanged. -/
theorem chain_method_call {S V : Type} (obj : String → ChainMember S V) (s : S)
    (name : String) (args : List V) (m : S → List V → S × ChainRet V)
    (h : obj name = ChainMember.method m) :
    (chainInvoke obj s name args).state = (m s args).1 ∧
    ((m s args).2 = ChainRet.selfRet →
      (chainInvoke obj s name args).ret = ChainResult.wrapper) ∧
    (∀ v, (m s args).2 = ChainRet.value v →
      (chainInvoke obj s name args).ret = ChainResult.value v) := by
  refine ⟨by simp [chainInvoke, h], ?_, ?_⟩
  · intro hr; simp [chainInvoke, h, hr]
  · intro v hr; simp [chainInvoke, h, hr]

/-- `ChainableString.append`: `this.value += text; return this`. -/
def csAppend (s : String) (args : List String) : String × ChainRet String :=
  (s ++ args.headD "", ChainRet.selfRet)

/-- `ChainableString.prepend`: `this.value = text + this.value; return this`. -/
def csPrepend (s : String) (args : List String) : String × ChainRet String :=
  (args.headD "" ++ s, ChainRet.selfRet)

/-- `ChainableString.toString`: returns the held string, not `this`. -/
def csToString (s : String) (_args : List String) : String × ChainRet String :=
  (s, ChainRet.value s)

/-- The member table of the demo `ChainableString` target (its state is the
held string). -/
def chainableString : String → ChainMember String String := fun name =>
  if name = "append" then ChainMember.method csAppend
  else if name = "prepend" then ChainMember.method csPrepend
  else if name = "toString" then ChainMember.method csToString
  else ChainMember.absent

theorem chain_method_call_w :
    (chainInvoke chainableString "Hello" "append" [" World"]).state =
      "Hello World" ∧
    (chainInvoke chainableString "Hello" "append" [" World"]).ret =
      ChainResult.wrapper := by
  have h := chain_method_call chainableString "Hello" "append" [" World"]
    csAppend rfl
  exact ⟨h.1.trans rfl, h.2.1 rfl⟩

/-- Claim C8: a chain of an existing mutator (returning the receiver), two
absent methods, and another existing mutator leaves the target in the same
final state as the two mutators alone; the unknown calls do not throw (they
produce ordinary outcomes), do not mutate the state, and return the wrapper,
so the chain continues — as does the first mutator through its normalized
self-return. -/
theorem chain_unknown_noop {S V : Type} (obj : String → ChainMember S V) (s : S)
    (n1 n2 u1 u2 : String) (a1 a2 b1 b2 : List V)
    (m1 m2 : S → List V → S × ChainRet V)
    (hn1 : obj n1 = ChainMember.method m1)
    (_hn2 : obj n2 = ChainMember.method m2)
    (hr1 : (m1 s a1).2 = ChainRet.selfRet)
    (hu1 : obj u1 = ChainMember.absent) (hu2 : obj u2 = ChainMember.absent) :
    runChain obj s [(n1, a1), (u1, b1), (u2, b2), (n2, a2)] =
      runChain obj s [(n1, a1), (n2, a2)] ∧
    (chainInvoke obj s n1 a1).ret = ChainResult.wrapper ∧
    (∀ t : S, (chainInvoke obj t u1 b1).state = t ∧
              (chainInvoke obj t u1 b1).ret = ChainResult.wrapper) ∧
    (∀ t : S, (chainInvoke obj t u2 b2).state = t ∧
              (chainInvoke obj t u2 b2).ret = ChainResult.wrapper) := by
  have e1 : ∀ t : S, (chainInvoke obj t u1 b1).state = t := fun t => by
    simp [chainInvoke, hu1]
  have e2 : ∀ t : S, (chainInvoke obj t u2 b2).state = t := fun t => by
    simp [chainInvoke, hu2]
  refine ⟨?_, by simp [chainInvoke, hn1, hr1], ?_, ?_⟩
  · simp only [runChain, List.foldl]
    rw [e1, e2]
  · exact fun t => ⟨e1 t, by simp [chainInvoke, hu1]⟩
  · exact fun t => ⟨e2 t, by simp [chainInvoke, hu2]⟩

theorem chain_unknown_noop_w :
    runChain chainableString "Hello"
        [("append", [" World"]), ("makeUpperCase", []),
         ("addEmoji", ["x"]), ("prepend", [">>> "])] =
      runChain chainableString "Hello"
        [("append", [" World"]), ("prepend", [">>> "])] ∧
    (chainInvoke chainableString "Hello" "append" [" World"]).ret =
      ChainResult.wrapper ∧
    (∀ t : String,
      (chainInvoke chainableString t "makeUpperCase" []).state = t ∧
      (chainInvoke chainableString t "makeUpperCase" []).ret =
        ChainResult.wrapper) ∧
    (∀ t : String,
      (chainInvoke chainableString t "addEmoji" ["x"]).state = t ∧
      (chainInvoke chainableString t "addEmoji" ["x"]).ret =
        ChainResult.wrapper) :=
  chain_unknown_noop chainableString "Hello" "append" "prepend"
    "makeUpperCase" "addEmoji" [" World"] [">>> "] [] ["x"]
    csAppend csPrepend rfl rfl rfl rfl rfl

/-! ## Exercise 5 — `createObservable` -/

/-- State captured by `createObservable`'s closure: the target object and the
`Map` of per-key listener arrays.  `C` is the type of listener callbacks,
kept abstract — callbacks are compared and invoked by identity. -/
structure Observable (C : Type) where
  obj : List (String × Value)
  listeners : List (String × List C)

/-- The `on` pseudo-member:
`listeners.set(propName, [...(currentCallbacks || []), callback])` —
appends, creating the list if absent, with no de-duplication. -/
def obsRegister {C : Type} (st : Observable C) (key : String) (cb : C) :
    Observable C :=
  { st with
    listeners :=
      aset st.listeners key (((alookup st.listeners key).getD []) ++ [cb]) }

/-- Registration of a list of callbacks on one key, in order. -/
def registerAll {C : Type} (st : Observable C) (key : String) (cbs : List C) :
    Observable C :=
  cbs.foldl (fun a c => obsRegister a key c) st

/-- `listeners.get(String(prop))` with the `if (propListeners)` guard: the
callbacks registered for a key, in registration order; empty when none. -/
def listensFor {C : Type} (st : Observable C) (key : String) : List C :=
  (alookup st.listeners key).getD []

/-- One synchronous listener invocation: the callback, the `(newVal, oldVal)`
pair it receives (`oldVal` is `undefined` when the key was absent), and the
underlying object as it stands when the callback runs (already committed). -/
structure Notification (C : Type) where
  cb : C
  newVal : Value
  oldVal : Value
  objAtCall : List (String × Value)
  deriving DecidableEq, Repr

/-- The `set` trap of `createObservable`: capture `oldVal = obj[prop]`, commit
`obj[prop] = newVal`, then invoke the listeners registered for the key, in
array (= registration) order, with `(newVal, oldVal)`. -/
def obsSet {C : Type} (st : Observable C) (key : String) (v : Value) :
    Observable C × List (Notification C) :=
  let oldVal := (alookup st.obj key).getD Value.undef
  let committed := aset st.obj key v
  ({ st with obj := committed },
   (listensFor st key).map (fun c =>
     { cb := c, newVal := v, oldVal := oldVal, objAtCall := committed }))

theorem registerAll_obj {C : Type} (st : Observable C) (key : String)
    (cbs : List C) : (registerAll st key cbs).obj = st.obj := by
  induction cbs generalizing st with
  | nil => rfl
  | cons c t ih =>
    show (registerAll (obsRegister st key c) key t).obj = st.obj
    rw [ih]
    rfl

theorem listensFor_registerAll {C : Type} (key : String) (cbs : List C)
    (st : Observable C) :
    listensFor (registerAll st key cbs) key = listensFor st key ++ cbs := by
  induction cbs generalizing st with
  | nil => simp [registerAll]
  | cons c t ih =>
    show listensFor (registerAll (obsRegister st key c) key t) key = _
    rw [ih]
    simp [listensFor, obsRegister, alookup_aset_self]

/-- Claim C9: after registering any number of listeners on a key (duplicates
allowed: each registration appends, so the same callback registered twice
appears twice), a write to that key commits the new value to the underlying
object and then synchronously invokes exactly the registered listeners, in
registration order, each receiving `(newValue, oldValue)` with `oldValue` the
value held immediately before the write, and with the committed object
already in place when the callbacks run. -/
theorem observable_write_notifies {C : Type} (st : Observable C) (key : String)
    (cbs : List C) (v : Value) (h0 : alookup st.listeners key = none) :
    (registerAll st key cbs).obj = st.obj ∧
    listensFor (registerAll st key cbs) key = cbs ∧
    (obsSet (registerAll st key cbs) key v).1.obj = aset st.obj key v ∧
    (obsSet (registerAll st key cbs) key v).1.listeners =
      (registerAll st key cbs).listeners ∧
    (obsSet (registerAll st key cbs) key v).2 =
      cbs.map (fun c =>
        { cb := c, newVal := v,
          oldVal := (alookup st.obj key).getD Value.undef,
          objAtCall := aset st.obj key v }) := by
  have hobj := registerAll_obj st key cbs
  have hl : listensFor (registerAll st key cbs) key = cbs := by
    rw [listensFor_registerAll]
    simp [listensFor, h0]
  refine ⟨hobj, hl, ?_, rfl, ?_⟩
  · simp [obsSet, hobj]
  · simp [obsSet, hl, hobj]

/-- The demo observable target `{ name: "Alice", age: 30 }` with no listeners
registered yet; callbacks are identified by number. -/
def demoObservable : Observable Nat :=
  { obj := [("name", Value.str "Alice"), ("age", Value.num 30)]
    listeners := [] }

theorem observable_write_notifies_w :
    (registerAll demoObservable "age" [0, 1]).obj = demoObservable.obj ∧
    listensFor (registerAll demoObservable "age" [0, 1]) "age" = [0, 1] ∧
    (obsSet (registerAll demoObservable "age" [0, 1]) "age"
        (Value.num 40)).1.obj =
      aset demoObservable.obj "age" (Value.num 40) ∧
    (obsSet (registerAll demoObservable "age" [0, 1]) "age"
        (Value.num 40)).1.listeners =
      (registerAll demoObservable "age" [0, 1]).listeners ∧
    (obsSet (registerAll demoObservable "age" [0, 1]) "age"
        (Value.num 40)).2 =
      [0, 1].map (fun c =>
        { cb := c, newVal := Value.num 40,
          oldVal := (alookup demoObservable.obj "age").getD Value.undef,
          objAtCall := aset demoObservable.obj "age" (Value.num 40) }) :=
  observable_write_notifies demoObservable "age" [0, 1] (Value.num 40)
    (by decide)

end Proxies
